import Mathlib

/-!
Verification of the segment/rib core of the `prismatic` geometry kernel
(`src/prismatic/src/indexes/geo_index/seg.rs`), embedded shallowly.

The generic scalar type `S : Scalar` is modelled by the real numbers ℝ
(the real-number idealization of the numeric tower the code is generic
over).  Rust panics (`panic!`, indexing into a map with a missing key,
`unwrap`) are modelled by `Option`, with `none` standing for the abort.
The `math` crate (`Vector3`, `Vector2`, `Matrix2`) is not part of the
sources; its operations are modelled from the spec's formulas and the
standard linear-algebra meanings the spec assigns them.
-/

noncomputable section

namespace Prismatic

/-- Point identifier: opaque handle into the external vertex store. -/
abbrev PtId := ℕ

/-- Rib identifier: opaque, globally unique handle (uniqueness strategy irrelevant here). -/
abbrev RibId := ℕ

/-- Rib: an ordered pair (origin point id, destination point id), the stored undirected edge.
In the source `Rib(PtId, PtId)` is a tuple struct accessed as `.0` / `.1`. -/
abbrev Rib := PtId × PtId

/-- Modelled from the spec: a 3D vector of scalars, as provided by the external `math` crate. -/
structure Vector3 where
  x : ℝ
  y : ℝ
  z : ℝ

namespace Vector3

/-- Modelled from the spec: componentwise addition. -/
def add (v w : Vector3) : Vector3 := ⟨v.x + w.x, v.y + w.y, v.z + w.z⟩

/-- Modelled from the spec: componentwise subtraction. -/
def sub (v w : Vector3) : Vector3 := ⟨v.x - w.x, v.y - w.y, v.z - w.z⟩

/-- Modelled from the spec: componentwise negation. -/
def neg (v : Vector3) : Vector3 := ⟨-v.x, -v.y, -v.z⟩

/-- Modelled from the spec: scalar multiplication `v * s`. -/
def smul (v : Vector3) (s : ℝ) : Vector3 := ⟨v.x * s, v.y * s, v.z * s⟩

instance : Add Vector3 := ⟨add⟩
instance : Sub Vector3 := ⟨sub⟩
instance : Neg Vector3 := ⟨neg⟩
instance : HMul Vector3 ℝ Vector3 := ⟨smul⟩
instance : Zero Vector3 := ⟨⟨0, 0, 0⟩⟩

/-- Modelled from the spec: Euclidean dot product. -/
def dot (v w : Vector3) : ℝ := v.x * w.x + v.y * w.y + v.z * w.z

/-- Modelled from the spec: squared Euclidean norm. -/
def magnitude_squared (v : Vector3) : ℝ := v.dot v

/-- Modelled from the spec: Euclidean norm. -/
def magnitude (v : Vector3) : ℝ := Real.sqrt v.magnitude_squared

/-- Modelled from the spec: normalization, `v / |v|` componentwise. -/
def normalize (v : Vector3) : Vector3 :=
  ⟨v.x / v.magnitude, v.y / v.magnitude, v.z / v.magnitude⟩

@[simp] lemma add_def (v w : Vector3) : v + w = ⟨v.x + w.x, v.y + w.y, v.z + w.z⟩ := rfl

@[simp] lemma sub_def (v w : Vector3) : v - w = ⟨v.x - w.x, v.y - w.y, v.z - w.z⟩ := rfl

@[simp] lemma neg_def (v : Vector3) : -v = ⟨-v.x, -v.y, -v.z⟩ := rfl

@[simp] lemma smul_def (v : Vector3) (s : ℝ) : v * s = ⟨v.x * s, v.y * s, v.z * s⟩ := rfl

lemma magnitude_squared_nonneg (v : Vector3) : 0 ≤ v.magnitude_squared := by
  cases v with
  | mk a b c =>
    simp only [magnitude_squared, dot]
    nlinarith [sq_nonneg a, sq_nonneg b, sq_nonneg c]

lemma magnitude_squared_eq_zero_iff (v : Vector3) :
    v.magnitude_squared = 0 ↔ v = ⟨0, 0, 0⟩ := by
  cases v with
  | mk a b c =>
    simp only [magnitude_squared, dot, Vector3.mk.injEq]
    constructor
    · intro h
      refine ⟨?_, ?_, ?_⟩ <;> nlinarith [sq_nonneg a, sq_nonneg b, sq_nonneg c]
    · rintro ⟨rfl, rfl, rfl⟩
      ring

lemma sq_magnitude (v : Vector3) : v.magnitude * v.magnitude = v.magnitude_squared :=
  Real.mul_self_sqrt (magnitude_squared_nonneg v)

lemma magnitude_eq_zero_iff (v : Vector3) : v.magnitude = 0 ↔ v = ⟨0, 0, 0⟩ := by
  rw [magnitude, Real.sqrt_eq_zero (magnitude_squared_nonneg v)]
  exact magnitude_squared_eq_zero_iff v

end Vector3

/-- Modelled from the spec: a 2D vector of scalars from the `math` crate. -/
structure Vector2 where
  x : ℝ
  y : ℝ

instance : Neg Vector2 := ⟨fun v => ⟨-v.x, -v.y⟩⟩

@[simp] lemma Vector2.neg_components (v : Vector2) : -v = ⟨-v.x, -v.y⟩ := rfl

/-- Modelled from the spec: a 2×2 matrix, row major as in `Matrix2::new(m11, m12, m21, m22)`. -/
structure Matrix2 where
  m11 : ℝ
  m12 : ℝ
  m21 : ℝ
  m22 : ℝ

namespace Matrix2

/-- Modelled from the spec: the 2×2 determinant. -/
def determinant (m : Matrix2) : ℝ := m.m11 * m.m22 - m.m12 * m.m21

/-- Modelled from the spec: the 2×2 inverse used to solve `(s, t) = M⁻¹·b`; fails
exactly when the determinant is zero. -/
def try_inverse (m : Matrix2) : Option Matrix2 :=
  if m.determinant = 0 then none
  else some ⟨m.m22 / m.determinant, -m.m12 / m.determinant,
             -m.m21 / m.determinant, m.m11 / m.determinant⟩

/-- Modelled from the spec: matrix–vector product `M · v`. -/
def mulVec (m : Matrix2) (v : Vector2) : Vector2 :=
  ⟨m.m11 * v.x + m.m12 * v.y, m.m21 * v.x + m.m22 * v.y⟩

end Matrix2

/-- The direction flag of a segment traversal (`SegmentDir` in the source). -/
inductive SegmentDir where
  | Fow
  | Rev
deriving DecidableEq, Repr

/-- `SegmentDir::flip`. -/
def SegmentDir.flip : SegmentDir → SegmentDir
  | .Fow => .Rev
  | .Rev => .Fow

/-- `Seg`: a lightweight directed traversal of one rib. -/
structure Seg where
  rib_id : RibId
  dir : SegmentDir
deriving DecidableEq, Repr

/-- The central geometric index, reduced to the two read-only views this core consumes:
`ribs` models the `BTreeMap<RibId, Rib>` (lookup returns `none` for an absent key) and
`vertices` models `vertex_index.get_point`. -/
structure GeoIndex where
  ribs : RibId → Option Rib
  vertices : PtId → Vector3

/-- `SegRef`: a read view of a `Seg` bound to an index borrow.  The borrow is modelled
by passing the `GeoIndex` explicitly to each lookup. -/
structure SegRef where
  rib_id : RibId
  dir : SegmentDir
deriving DecidableEq, Repr

/-- `SegRefMut`: the exclusive write-capability token over a rib. -/
structure SegRefMut where
  rib_id : RibId
  dir : SegmentDir
deriving DecidableEq, Repr

/-- `SegmentRef`: an ad-hoc read view over an arbitrary pair of points; fields as in
the source (`to`, `from`), with `from` spelled `from_` because it is a Lean keyword. -/
structure SegmentRef where
  to_ : PtId
  from_ : PtId
deriving DecidableEq, Repr

namespace Seg

/-- `Seg::flip`: same rib identifier, opposite direction. -/
def flip (s : Seg) : Seg := ⟨s.rib_id, s.dir.flip⟩

/-- `Seg::to(ribs)`: resolve against a caller-supplied rib map; `none` models the
panic on an absent key (`ribs[&self.rib_id]`). -/
def to_ (s : Seg) (ribs : RibId → Option Rib) : Option PtId :=
  (ribs s.rib_id).map fun rib =>
    match s.dir with
    | .Fow => rib.2
    | .Rev => rib.1

/-- `Seg::from(ribs)`: resolve against a caller-supplied rib map; `none` models the
panic on an absent key. -/
def from_ (s : Seg) (ribs : RibId → Option Rib) : Option PtId :=
  (ribs s.rib_id).map fun rib =>
    match s.dir with
    | .Fow => rib.1
    | .Rev => rib.2

/-- `Seg::to_ref`: upgrade to a contextual reference (the index borrow is implicit
in our embedding, so only the identifier data is carried). -/
def to_ref (s : Seg) : SegRef := ⟨s.rib_id, s.dir⟩

/-- `GeoObject::make_ref` for `Seg`. -/
def make_ref (s : Seg) : SegRef := ⟨s.rib_id, s.dir⟩

/-- `GeoObject::make_mut_ref` for `Seg`. -/
def make_mut_ref (s : Seg) : SegRefMut := ⟨s.rib_id, s.dir⟩

end Seg

/-- `UnRef::un_ref` for `SegRef`: recovers the identifier-only value. -/
def SegRef.un_ref (s : SegRef) : Seg := ⟨s.rib_id, s.dir⟩

/-- `UnRef::un_ref` for `SegRefMut`: recovers only the rib identifier. -/
def SegRefMut.un_ref (s : SegRefMut) : RibId := s.rib_id

namespace SegRef

/-- `SegRef::to_pt`: resolve the rib, then pick the endpoint per direction; `none`
models the "No rib found" panic. -/
def to_pt (s : SegRef) (idx : GeoIndex) : Option PtId :=
  (idx.ribs s.rib_id).map fun rib =>
    match s.dir with
    | .Fow => rib.2
    | .Rev => rib.1

/-- `SegRef::from_pt`: resolve the rib, then pick the endpoint per direction; `none`
models the "No rib found" panic. -/
def from_pt (s : SegRef) (idx : GeoIndex) : Option PtId :=
  (idx.ribs s.rib_id).map fun rib =>
    match s.dir with
    | .Fow => rib.1
    | .Rev => rib.2

/-- `SegRef::from`: the resolved 3D coordinate of the source endpoint. -/
def fromV (s : SegRef) (idx : GeoIndex) : Option Vector3 :=
  (s.from_pt idx).map idx.vertices

/-- `SegRef::to`: the resolved 3D coordinate of the target endpoint. -/
def toV (s : SegRef) (idx : GeoIndex) : Option Vector3 :=
  (s.to_pt idx).map idx.vertices

/-- `SegRef::dir`: vector from `from()` to `to()` (not normalized). -/
def dirV (s : SegRef) (idx : GeoIndex) : Option Vector3 := do
  let t ← s.toV idx
  let f ← s.fromV idx
  pure (t - f)

/-- `SegRef::has`: true iff the point id equals either endpoint; aborts (`none`) when
the rib lookup aborts. -/
def has (s : SegRef) (v : PtId) (idx : GeoIndex) : Option Bool := do
  let t ← s.to_pt idx
  let f ← s.from_pt idx
  pure (t == v || f == v)

/-- `SegRef::flip`: same rib over the same borrow, opposite direction. -/
def flip (s : SegRef) : SegRef := ⟨s.rib_id, s.dir.flip⟩

/-- `SegRef::seg`: drop the borrow, recover the plain `Seg`. -/
def seg (s : SegRef) : Seg := ⟨s.rib_id, s.dir⟩

end SegRef

namespace SegmentRef

/-- `SegmentRef::new`: construction validates `from ≠ to`; `none` models the
"Same point - not a segment" panic. -/
def new (f t : PtId) : Option SegmentRef :=
  if t = f then none else some ⟨t, f⟩

/-- `SegmentRef::from_pt`. -/
def from_pt (s : SegmentRef) : PtId := s.from_

/-- `SegmentRef::to_pt`. -/
def to_pt (s : SegmentRef) : PtId := s.to_

/-- `SegmentRef::from`: coordinate of the source point. -/
def fromV (s : SegmentRef) (idx : GeoIndex) : Vector3 := idx.vertices s.from_

/-- `SegmentRef::to`: coordinate of the target point. -/
def toV (s : SegmentRef) (idx : GeoIndex) : Vector3 := idx.vertices s.to_

/-- `SegmentRef::dir`: `to() - from()`. -/
def dirV (s : SegmentRef) (idx : GeoIndex) : Vector3 := s.toV idx - s.fromV idx

/-- `SegmentRef::has`. -/
def has (s : SegmentRef) (v : PtId) : Bool := s.to_ = v || s.from_ = v

/-- `SegmentRef::flip`: swap the two endpoints. -/
def flip (s : SegmentRef) : SegmentRef := ⟨s.from_, s.to_⟩

/-- `SegmentRef::distance_to_pt_squared`: squared perpendicular distance to the
infinite supporting line, zero when the point coincides with `from`. -/
def distance_to_pt_squared (s : SegmentRef) (idx : GeoIndex) (pt : Vector3) : ℝ :=
  let v := pt - s.fromV idx
  if v.magnitude_squared = 0 then 0
  else
    let dir := (s.dirV idx).normalize
    let t := v.dot dir
    v.dot v - t * t

/-- `SegmentRef::get_intersection_params_seg_ref`: the tolerance-based segment–segment
intersection solver.  The outer `Option` models the abort when the other segment's rib
is dangling; the inner `Option` is the routine's own "no intersection" result. -/
def get_intersection_params_seg_ref (s : SegmentRef) (idx : GeoIndex) (o : SegRef) :
    Option (Option (ℝ × ℝ)) :=
  match o.fromV idx, o.dirV idx with
  | some toFromV, some toDirV =>
    let vertex_pulling : ℝ := 1 / 1000
    let vertex_pulling_sq := vertex_pulling * vertex_pulling
    let segment_dir := toDirV.normalize
    let self_dir := (s.dirV idx).normalize
    let q := s.fromV idx - toFromV
    let dt := self_dir.dot segment_dir
    let m : Matrix2 := ⟨1, -dt, dt, -1⟩
    let b : Vector2 := -(⟨q.dot self_dir, q.dot segment_dir⟩ : Vector2)
    if |m.determinant| < vertex_pulling_sq then
      some none
    else
      match m.try_inverse with
      | some mi =>
        let st := mi.mulVec b
        let p1 := s.dirV idx * st.x + s.fromV idx
        let p2 := toDirV.normalize * st.y + toFromV
        let dist := p1 - p2
        if dist.magnitude_squared < vertex_pulling_sq then
          some (some (st.x, st.y / toDirV.magnitude))
        else
          some none
      | none => some none
  | _, _ => none

end SegmentRef

/-! Helper lemmas about the modelled vector algebra, and a small concrete index used
for the spec's worked examples. -/

namespace Vector3

lemma sub_eq_zero_iff (v w : Vector3) : v - w = ⟨0, 0, 0⟩ ↔ v = w := by
  cases v with
  | mk a b c =>
    cases w with
    | mk d e f =>
      simp only [sub_def, mk.injEq]
      constructor
      · rintro ⟨h1, h2, h3⟩
        exact ⟨by linarith, by linarith, by linarith⟩
      · rintro ⟨rfl, rfl, rfl⟩
        exact ⟨by ring, by ring, by ring⟩

lemma dot_normalize (v d : Vector3) : v.dot d.normalize = v.dot d / d.magnitude := by
  simp only [dot, normalize, div_eq_mul_inv]
  ring

lemma dot_normalize_sq (v d : Vector3) :
    v.dot d.normalize * (v.dot d.normalize) = v.dot d * v.dot d / d.magnitude_squared := by
  rw [dot_normalize, div_mul_div_comm, sq_magnitude]

lemma normalize_x (a : ℝ) (ha : 0 < a) :
    Vector3.normalize ⟨a, 0, 0⟩ = ⟨1, 0, 0⟩ := by
  have hm : Vector3.magnitude ⟨a, 0, 0⟩ = a := by
    simp only [magnitude, magnitude_squared, dot]
    rw [show a * a + 0 * 0 + 0 * 0 = a * a by ring]
    exact Real.sqrt_mul_self ha.le
  simp [normalize, hm, div_self ha.ne']

lemma normalize_y (a : ℝ) (ha : 0 < a) :
    Vector3.normalize ⟨0, a, 0⟩ = ⟨0, 1, 0⟩ := by
  have hm : Vector3.magnitude ⟨0, a, 0⟩ = a := by
    simp only [magnitude, magnitude_squared, dot]
    rw [show 0 * 0 + a * a + 0 * 0 = a * a by ring]
    exact Real.sqrt_mul_self ha.le
  simp [normalize, hm, div_self ha.ne']

lemma magnitude_y (a : ℝ) (ha : 0 ≤ a) : Vector3.magnitude ⟨0, a, 0⟩ = a := by
  simp only [magnitude, magnitude_squared, dot]
  rw [show 0 * 0 + a * a + 0 * 0 = a * a by ring]
  exact Real.sqrt_mul_self ha

end Vector3

/-- A concrete index realizing the spec's worked examples: rib 0 is the crossing
partner (0.5,−1,0)→(0.5,1,0), rib 1 the parallel partner (0,1,0)→(1,1,0), rib 2 a
collinear overlapping partner (0.5,0,0)→(2,0,0), rib 3 the base segment (0,0,0)→(1,0,0). -/
def exIdx : GeoIndex where
  ribs := fun r =>
    if r = 0 then some (2, 3)
    else if r = 1 then some (4, 5)
    else if r = 2 then some (8, 6)
    else if r = 3 then some (0, 1)
    else none
  vertices := fun p =>
    if p = 0 then ⟨0, 0, 0⟩
    else if p = 1 then ⟨1, 0, 0⟩
    else if p = 2 then ⟨1 / 2, -1, 0⟩
    else if p = 3 then ⟨1 / 2, 1, 0⟩
    else if p = 4 then ⟨0, 1, 0⟩
    else if p = 5 then ⟨1, 1, 0⟩
    else if p = 6 then ⟨2, 0, 0⟩
    else if p = 8 then ⟨1 / 2, 0, 0⟩
    else ⟨0, 0, 0⟩

/-! The claims. -/

/-- C6: `flip` is an involution everywhere it is defined: for both direction values
`flip (flip d) = d`, and for every `Seg`, `SegRef`, and `SegmentRef`,
`x.flip.flip = x` (same rib identifier and direction for Seg/SegRef; same
from/to points for SegmentRef). -/
theorem flip_involution :
    (∀ d : SegmentDir, d.flip.flip = d) ∧
    (∀ s : Seg, s.flip.flip = s) ∧
    (∀ s : SegRef, s.flip.flip = s) ∧
    (∀ s : SegmentRef, s.flip.flip = s) := by
  refine ⟨fun d => ?_, fun s => ?_, fun s => ?_, fun s => rfl⟩
  · cases d <;> rfl
  · cases s with
    | mk r d => cases d <;> rfl
  · cases s with
    | mk r d => cases d <;> rfl

/-- C8: the capability conversion round-trips: `un_ref (make_ref s) = s` recovers the
identifier-only value with the same rib id and direction, while for the mutable
capability `un_ref (make_mut_ref s)` recovers only the rib identifier of `s`,
discarding the direction. -/
theorem un_ref_round_trip :
    (∀ s : Seg, s.make_ref.un_ref = s) ∧
    (∀ s : Seg, s.make_mut_ref.un_ref = s.rib_id) :=
  ⟨fun _ => rfl, fun _ => rfl⟩

/-- C5: constructing a `SegmentRef` with equal endpoints aborts (`new p p = none` for
every `p`), and every `SegmentRef` obtained from a successful construction satisfies
`from ≠ to` after any number of `flip` applications. -/
theorem segmentRef_new_invariant :
    (∀ p : PtId, SegmentRef.new p p = none) ∧
    (∀ f t : PtId, ∀ s : SegmentRef, SegmentRef.new f t = some s →
      ∀ n : ℕ, (SegmentRef.flip^[n] s).from_ ≠ (SegmentRef.flip^[n] s).to_) := by
  constructor
  · intro p
    simp [SegmentRef.new]
  · intro f t s hs n
    have hft : t ≠ f ∧ s = ⟨t, f⟩ := by
      simp only [SegmentRef.new] at hs
      split at hs
      · exact absurd hs (by simp)
      · exact ⟨by assumption, (Option.some_injective _ hs).symm⟩
    obtain ⟨hne, rfl⟩ := hft
    induction n with
    | zero =>
      simpa [SegmentRef.from_, SegmentRef.to_] using fun h => hne h.symm
    | succ k ih =>
      rw [Function.iterate_succ_apply']
      cases hflip : SegmentRef.flip^[k] (⟨t, f⟩ : SegmentRef) with
      | mk a b =>
        rw [hflip] at ih
        simp only [SegmentRef.flip] at *
        exact fun h => ih h.symm

/-- C5 witness: the construction succeeds on distinct points 0 and 1 and the
invariant holds after three flips. -/
theorem segmentRef_new_invariant_witness :
    (SegmentRef.flip^[3] (⟨1, 0⟩ : SegmentRef)).from_ ≠
      (SegmentRef.flip^[3] (⟨1, 0⟩ : SegmentRef)).to_ :=
  segmentRef_new_invariant.2 0 1 ⟨1, 0⟩ (by decide) 3

/-- C3: for every rib `(p0, p1)` present in rib storage, a `Seg` or `SegRef` over that
rib with Forward direction has `from = p0` and `to = p1`, and with Reverse direction
has `from = p1` and `to = p0`; for `SegRef` the coordinate lookups resolve those point
ids through the vertex store, for `Seg` the map-level lookups return the point ids. -/
theorem seg_endpoint_resolution :
    ∀ (idx : GeoIndex) (rid : RibId) (p0 p1 : PtId),
      idx.ribs rid = some (p0, p1) →
      (SegRef.mk rid .Fow).from_pt idx = some p0 ∧
      (SegRef.mk rid .Fow).to_pt idx = some p1 ∧
      (SegRef.mk rid .Rev).from_pt idx = some p1 ∧
      (SegRef.mk rid .Rev).to_pt idx = some p0 ∧
      (SegRef.mk rid .Fow).fromV idx = some (idx.vertices p0) ∧
      (SegRef.mk rid .Fow).toV idx = some (idx.vertices p1) ∧
      (SegRef.mk rid .Rev).fromV idx = some (idx.vertices p1) ∧
      (SegRef.mk rid .Rev).toV idx = some (idx.vertices p0) ∧
      (Seg.mk rid .Fow).from_ idx.ribs = some p0 ∧
      (Seg.mk rid .Fow).to_ idx.ribs = some p1 ∧
      (Seg.mk rid .Rev).from_ idx.ribs = some p1 ∧
      (Seg.mk rid .Rev).to_ idx.ribs = some p0 := by
  intro idx rid p0 p1 h
  refine ⟨?_, ?_, ?_, ?_, ?_, ?_, ?_, ?_, ?_, ?_, ?_, ?_⟩ <;>
    simp [SegRef.from_pt, SegRef.to_pt, SegRef.fromV, SegRef.toV, Seg.from_, Seg.to_, h]

/-- C3 witness: rib 3 of the concrete index stores the pair (0, 1) and the forward
and reverse readings resolve accordingly. -/
theorem seg_endpoint_resolution_witness :
    (SegRef.mk 3 .Fow).from_pt exIdx = some 0 ∧
    (SegRef.mk 3 .Fow).to_pt exIdx = some 1 ∧
    (SegRef.mk 3 .Rev).from_pt exIdx = some 1 ∧
    (SegRef.mk 3 .Rev).to_pt exIdx = some 0 :=
  ⟨(seg_endpoint_resolution exIdx 3 0 1 rfl).1,
   (seg_endpoint_resolution exIdx 3 0 1 rfl).2.1,
   (seg_endpoint_resolution exIdx 3 0 1 rfl).2.2.1,
   (seg_endpoint_resolution exIdx 3 0 1 rfl).2.2.2.1⟩

/-- C9: `SegRef` endpoint lookups abort (dangling reference) exactly when the rib
identifier is absent from the index's rib map; whenever the rib is present, `from_pt`,
`to_pt`, `from`, `to` and `dir` all succeed. -/
theorem segref_dangling_lookup :
    ∀ (idx : GeoIndex) (s : SegRef),
      (s.from_pt idx = none ↔ idx.ribs s.rib_id = none) ∧
      (s.to_pt idx = none ↔ idx.ribs s.rib_id = none) ∧
      (s.fromV idx = none ↔ idx.ribs s.rib_id = none) ∧
      (s.toV idx = none ↔ idx.ribs s.rib_id = none) ∧
      (s.dirV idx = none ↔ idx.ribs s.rib_id = none) := by
  intro idx s
  cases h : idx.ribs s.rib_id with
  | none =>
    simp [SegRef.from_pt, SegRef.to_pt, SegRef.fromV, SegRef.toV, SegRef.dirV, h]
  | some rib =>
    simp [SegRef.from_pt, SegRef.to_pt, SegRef.fromV, SegRef.toV, SegRef.dirV, h]

/-- C10: endpoint membership is invariant under flipping: for every `SegRef` (in any
index state) and every `SegmentRef`, `s.flip.has p = s.has p`. -/
theorem has_flip_invariant :
    (∀ (idx : GeoIndex) (s : SegRef) (v : PtId), s.flip.has v idx = s.has v idx) ∧
    (∀ (s : SegmentRef) (v : PtId), s.flip.has v = s.has v) := by
  constructor
  · intro idx s v
    cases h : idx.ribs s.rib_id with
    | none =>
      simp [SegRef.has, SegRef.to_pt, SegRef.from_pt, SegRef.flip, h]
    | some rib =>
      cases s with
      | mk rid d =>
        cases d <;>
          simp [SegRef.has, SegRef.to_pt, SegRef.from_pt, SegRef.flip, SegmentDir.flip, h,
            Bool.or_comm]
  · intro s v
    simp [SegmentRef.has, SegmentRef.flip, Bool.or_comm]

/-! Distance to the supporting line (claims C4 and C7). -/

/-- Equational form of `distance_to_pt_squared` with the let-bindings inlined. -/
lemma distance_to_pt_squared_def (s : SegmentRef) (idx : GeoIndex) (pt : Vector3) :
    s.distance_to_pt_squared idx pt =
      if (pt - s.fromV idx).magnitude_squared = 0 then 0
      else (pt - s.fromV idx).dot (pt - s.fromV idx) -
        (pt - s.fromV idx).dot (s.dirV idx).normalize *
          ((pt - s.fromV idx).dot (s.dirV idx).normalize) := rfl

/-- The raw distance formula is symmetric in the two endpoints: measuring from `B`
along direction `A − B` agrees with measuring from `A` along `B − A`. -/
lemma dist_core_flip (A B p : Vector3) :
    (if (p - B).magnitude_squared = 0 then (0 : ℝ)
     else (p - B).dot (p - B) -
       (p - B).dot (A - B).normalize * ((p - B).dot (A - B).normalize))
  = (if (p - A).magnitude_squared = 0 then (0 : ℝ)
     else (p - A).dot (p - A) -
       (p - A).dot (B - A).normalize * ((p - A).dot (B - A).normalize)) := by
  rw [Vector3.dot_normalize_sq, Vector3.dot_normalize_sq]
  have hmag : (A - B).magnitude_squared = (B - A).magnitude_squared := by
    cases A; cases B
    simp only [Vector3.sub_def, Vector3.magnitude_squared, Vector3.dot]
    ring
  rw [hmag]
  by_cases hM : (B - A).magnitude_squared = 0
  · have hBA : B = A := (Vector3.sub_eq_zero_iff B A).mp
      ((Vector3.magnitude_squared_eq_zero_iff _).mp hM)
    rw [hBA]
  · by_cases hB : (p - B).magnitude_squared = 0
    · have hpB : p = B := (Vector3.sub_eq_zero_iff p B).mp
        ((Vector3.magnitude_squared_eq_zero_iff _).mp hB)
      rw [if_pos hB, hpB, if_neg hM]
      clear hB hpB hmag
      cases A; cases B
      simp only [Vector3.sub_def, Vector3.magnitude_squared, Vector3.dot] at hM ⊢
      field_simp
    · by_cases hA : (p - A).magnitude_squared = 0
      · have hpA : p = A := (Vector3.sub_eq_zero_iff p A).mp
          ((Vector3.magnitude_squared_eq_zero_iff _).mp hA)
        rw [if_neg hB, if_pos hA, hpA]
        clear hA hB hpA hmag
        cases A; cases B
        simp only [Vector3.sub_def, Vector3.magnitude_squared, Vector3.dot] at hM ⊢
        field_simp
        ring
      · rw [if_neg hB, if_neg hA]
        clear hA hB hmag
        cases A; cases B; cases p
        simp only [Vector3.sub_def, Vector3.magnitude_squared, Vector3.dot] at hM ⊢
        field_simp
        ring

/-- C4: `distance_to_pt_squared p` returns exactly zero when `p` coincides with
`from()`; otherwise, with `v = p − from()` and `t` the projection of `v` on the
normalized direction, it returns `v·v − t²` (the squared perpendicular distance to
the infinite supporting line, not clamped to the segment); in particular for the
segment (0,0,0)→(2,0,0) and the point (1,1,0) it returns 1. -/
theorem distance_to_pt_squared_spec :
    (∀ (idx : GeoIndex) (s : SegmentRef) (p : Vector3), s.from_ ≠ s.to_ →
      (p = s.fromV idx → s.distance_to_pt_squared idx p = 0) ∧
      (p ≠ s.fromV idx →
        s.distance_to_pt_squared idx p =
          (p - s.fromV idx).dot (p - s.fromV idx) -
            (p - s.fromV idx).dot ((s.dirV idx).normalize) *
              ((p - s.fromV idx).dot ((s.dirV idx).normalize)))) ∧
    SegmentRef.distance_to_pt_squared ⟨6, 0⟩ exIdx ⟨1, 1, 0⟩ = 1 := by
  constructor
  · intro idx s p _
    constructor
    · intro hp
      rw [distance_to_pt_squared_def, hp,
        if_pos ((Vector3.magnitude_squared_eq_zero_iff _).mpr
          ((Vector3.sub_eq_zero_iff _ _).mpr rfl))]
    · intro hp
      rw [distance_to_pt_squared_def, if_neg]
      intro h
      exact hp ((Vector3.sub_eq_zero_iff _ _).mp
        ((Vector3.magnitude_squared_eq_zero_iff _).mp h))
  · have hfrom : SegmentRef.fromV ⟨6, 0⟩ exIdx = ⟨0, 0, 0⟩ := rfl
    have hdir : SegmentRef.dirV ⟨6, 0⟩ exIdx = ⟨2, 0, 0⟩ := by
      show exIdx.vertices 6 - exIdx.vertices 0 = _
      norm_num [exIdx]
    rw [distance_to_pt_squared_def, hfrom, hdir, Vector3.normalize_x 2 (by norm_num)]
    rw [if_neg (by norm_num [Vector3.magnitude_squared, Vector3.dot])]
    norm_num [Vector3.dot]

/-- C4 witness: at the point coinciding with `from` the distance is zero, by the
general theorem applied to the concrete segment (0,0,0)→(2,0,0). -/
theorem distance_to_pt_squared_spec_witness :
    SegmentRef.distance_to_pt_squared ⟨6, 0⟩ exIdx ⟨0, 0, 0⟩ = 0 :=
  (distance_to_pt_squared_spec.1 exIdx ⟨6, 0⟩ ⟨0, 0, 0⟩ (by decide)).1 rfl

/-- C7: for every valid `SegmentRef` `s`, `distance_to_pt_squared` vanishes at
`from()`, and the result is invariant under `flip`:
`s.flip.distance_to_pt_squared p = s.distance_to_pt_squared p` for every point. -/
theorem distance_flip_invariant :
    ∀ (idx : GeoIndex) (s : SegmentRef), s.from_ ≠ s.to_ →
      s.distance_to_pt_squared idx (s.fromV idx) = 0 ∧
      ∀ p : Vector3,
        s.flip.distance_to_pt_squared idx p = s.distance_to_pt_squared idx p := by
  intro idx s _
  constructor
  · rw [distance_to_pt_squared_def,
      if_pos ((Vector3.magnitude_squared_eq_zero_iff _).mpr
        ((Vector3.sub_eq_zero_iff _ _).mpr rfl))]
  · intro p
    rw [distance_to_pt_squared_def, distance_to_pt_squared_def]
    exact dist_core_flip (s.fromV idx) (s.toV idx) p

/-- C7 witness: the concrete base segment (0,0,0)→(1,0,0) has zero distance at its
source and flip-invariant distance at the sample point (3,4,5). -/
theorem distance_flip_invariant_witness :
    SegmentRef.distance_to_pt_squared ⟨1, 0⟩ exIdx
        (SegmentRef.fromV ⟨1, 0⟩ exIdx) = 0 ∧
    SegmentRef.distance_to_pt_squared (SegmentRef.flip ⟨1, 0⟩) exIdx ⟨3, 4, 5⟩ =
      SegmentRef.distance_to_pt_squared ⟨1, 0⟩ exIdx ⟨3, 4, 5⟩ :=
  ⟨(distance_flip_invariant exIdx ⟨1, 0⟩ (by decide)).1,
   (distance_flip_invariant exIdx ⟨1, 0⟩ (by decide)).2 ⟨3, 4, 5⟩⟩

/-! The segment–segment intersection solver (claims C1 and C2). -/

/-- Closed form of `get_intersection_params_seg_ref` once the other segment's rib
resolves: `dt` is the dot product of the normalized directions and `b` the
right-hand side of the 2×2 system. -/
lemma get_intersection_eq (s : SegmentRef) (idx : GeoIndex) (o : SegRef)
    (oF oD : Vector3) (dt : ℝ) (b : Vector2)
    (hF : o.fromV idx = some oF) (hD : o.dirV idx = some oD)
    (hdt : dt = (s.dirV idx).normalize.dot oD.normalize)
    (hb : b = -(⟨(s.fromV idx - oF).dot (s.dirV idx).normalize,
        (s.fromV idx - oF).dot oD.normalize⟩ : Vector2)) :
    s.get_intersection_params_seg_ref idx o =
      if |(Matrix2.mk 1 (-dt) dt (-1)).determinant| < 1 / 1000 * (1 / 1000) then
        some none
      else
        match (Matrix2.mk 1 (-dt) dt (-1)).try_inverse with
        | some mi =>
          if (s.dirV idx * (mi.mulVec b).x + s.fromV idx -
              (oD.normalize * (mi.mulVec b).y + oF)).magnitude_squared <
              1 / 1000 * (1 / 1000) then
            some (some ((mi.mulVec b).x, (mi.mulVec b).y / oD.magnitude))
          else
            some none
        | none => some none := by
  subst hdt hb
  unfold SegmentRef.get_intersection_params_seg_ref
  rw [hF, hD]

/-- C2: whenever the normalized directions make `|det M| < ε²` for
`M = [[1, −dot], [dot, −1]]` and `ε = 0.001`, the solver returns no intersection
without attempting the solve; in particular for the exactly parallel pair
(0,0,0)→(1,0,0) vs (0,1,0)→(1,1,0) and for the collinear overlapping pair
(0,0,0)→(1,0,0) vs (0.5,0,0)→(2,0,0). -/
theorem seg_intersection_parallel_none :
    (∀ (idx : GeoIndex) (s : SegmentRef) (o : SegRef) (oF oD : Vector3),
        o.fromV idx = some oF → o.dirV idx = some oD →
        |(Matrix2.mk 1 (-((s.dirV idx).normalize.dot oD.normalize))
            ((s.dirV idx).normalize.dot oD.normalize) (-1)).determinant| <
          1 / 1000 * (1 / 1000) →
        s.get_intersection_params_seg_ref idx o = some none) ∧
    SegmentRef.get_intersection_params_seg_ref ⟨1, 0⟩ exIdx ⟨1, .Fow⟩ = some none ∧
    SegmentRef.get_intersection_params_seg_ref ⟨1, 0⟩ exIdx ⟨2, .Fow⟩ = some none := by
  have general : ∀ (idx : GeoIndex) (s : SegmentRef) (o : SegRef) (oF oD : Vector3),
      o.fromV idx = some oF → o.dirV idx = some oD →
      |(Matrix2.mk 1 (-((s.dirV idx).normalize.dot oD.normalize))
          ((s.dirV idx).normalize.dot oD.normalize) (-1)).determinant| <
        1 / 1000 * (1 / 1000) →
      s.get_intersection_params_seg_ref idx o = some none := by
    intro idx s o oF oD hF hD hdet
    rw [get_intersection_eq s idx o oF oD _ _ hF hD rfl rfl, if_pos hdet]
  refine ⟨general, ?_, ?_⟩
  · have hsd : SegmentRef.dirV ⟨1, 0⟩ exIdx = ⟨1, 0, 0⟩ := by
      show exIdx.vertices 1 - exIdx.vertices 0 = _
      norm_num [exIdx]
    refine general exIdx ⟨1, 0⟩ ⟨1, .Fow⟩ ⟨0, 1, 0⟩ ⟨1, 0, 0⟩ rfl ?_ ?_
    · rw [show SegRef.dirV ⟨1, .Fow⟩ exIdx =
          some ((⟨1, 1, 0⟩ : Vector3) - ⟨0, 1, 0⟩) from rfl]
      norm_num
    · rw [hsd, Vector3.normalize_x 1 (by norm_num)]
      norm_num [Vector3.dot, Matrix2.determinant]
  · have hsd : SegmentRef.dirV ⟨1, 0⟩ exIdx = ⟨1, 0, 0⟩ := by
      show exIdx.vertices 1 - exIdx.vertices 0 = _
      norm_num [exIdx]
    refine general exIdx ⟨1, 0⟩ ⟨2, .Fow⟩ ⟨1 / 2, 0, 0⟩ ⟨3 / 2, 0, 0⟩ rfl ?_ ?_
    · rw [show SegRef.dirV ⟨2, .Fow⟩ exIdx =
          some ((⟨2, 0, 0⟩ : Vector3) - ⟨1 / 2, 0, 0⟩) from rfl]
      norm_num
    · rw [hsd, Vector3.normalize_x 1 (by norm_num),
        Vector3.normalize_x (3 / 2) (by norm_num)]
      norm_num [Vector3.dot, Matrix2.determinant]

/-- C2 witness: the general near-parallel branch applied to the concrete collinear
overlapping pair, with the reversed reading of the other rib. -/
theorem seg_intersection_parallel_none_witness :
    SegmentRef.get_intersection_params_seg_ref ⟨1, 0⟩ exIdx ⟨1, .Rev⟩ = some none := by
  have hsd : SegmentRef.dirV ⟨1, 0⟩ exIdx = ⟨1, 0, 0⟩ := by
    show exIdx.vertices 1 - exIdx.vertices 0 = _
    norm_num [exIdx]
  refine seg_intersection_parallel_none.1 exIdx ⟨1, 0⟩ ⟨1, .Rev⟩ ⟨1, 1, 0⟩ ⟨-1, 0, 0⟩
    rfl ?_ ?_
  · rw [show SegRef.dirV ⟨1, .Rev⟩ exIdx =
        some ((⟨0, 1, 0⟩ : Vector3) - ⟨1, 1, 0⟩) from rfl]
    norm_num
  · have hn : Vector3.normalize ⟨-1, 0, 0⟩ = ⟨-1, 0, 0⟩ := by
      have hm : Vector3.magnitude ⟨-1, 0, 0⟩ = 1 := by
        simp only [Vector3.magnitude, Vector3.magnitude_squared, Vector3.dot]
        norm_num
      simp [Vector3.normalize, hm]
    rw [hsd, hn, Vector3.normalize_x 1 (by norm_num)]
    norm_num [Vector3.dot, Matrix2.determinant]

/-- A successful `try_inverse` yields a genuine right inverse for the solve:
`M · (M⁻¹ · v) = v`. -/
lemma Matrix2.mulVec_try_inverse (m mi : Matrix2) (h : m.try_inverse = some mi)
    (v : Vector2) : m.mulVec (mi.mulVec v) = v := by
  by_cases h0 : m.determinant = 0
  · rw [Matrix2.try_inverse, if_pos h0] at h
    exact absurd h (by simp)
  · rw [Matrix2.try_inverse, if_neg h0] at h
    injection h with h
    subst h
    cases m with
    | mk a b c d =>
      cases v with
      | mk vx vy =>
        simp only [Matrix2.mulVec, Matrix2.determinant] at h0 ⊢
        rw [Vector2.mk.injEq]
        constructor <;> field_simp <;> ring

/-- C1: whenever the directions are not near-parallel (`ε² ≤ |det M|`), the solver
solves `M · (s, t) = b`, builds `p1 = dirSelf · s + fromSelf` from the unnormalized
self direction and `p2 = normalize(dirOther) · t + fromOther`, and returns
`(s, t / |dirOther|)` exactly when `|p1 − p2|² < ε²` (nothing otherwise); in
particular the crossing pair (0,0,0)→(1,0,0) vs (0.5,−1,0)→(0.5,1,0) yields
`(0.5, 0.5)`. -/
theorem seg_intersection_solver_spec :
    (∀ (idx : GeoIndex) (s : SegmentRef) (o : SegRef) (oF oD : Vector3),
        o.fromV idx = some oF → o.dirV idx = some oD →
        1 / 1000 * (1 / 1000) ≤
          |(Matrix2.mk 1 (-((s.dirV idx).normalize.dot oD.normalize))
              ((s.dirV idx).normalize.dot oD.normalize) (-1)).determinant| →
        ∃ st : Vector2,
          (Matrix2.mk 1 (-((s.dirV idx).normalize.dot oD.normalize))
              ((s.dirV idx).normalize.dot oD.normalize) (-1)).mulVec st =
            -(⟨(s.fromV idx - oF).dot (s.dirV idx).normalize,
               (s.fromV idx - oF).dot oD.normalize⟩ : Vector2) ∧
          s.get_intersection_params_seg_ref idx o =
            some (if (s.dirV idx * st.x + s.fromV idx -
                (oD.normalize * st.y + oF)).magnitude_squared <
                1 / 1000 * (1 / 1000) then
              some (st.x, st.y / oD.magnitude)
            else none)) ∧
    SegmentRef.get_intersection_params_seg_ref ⟨1, 0⟩ exIdx ⟨0, .Fow⟩ =
      some (some (1 / 2, 1 / 2)) := by
  constructor
  · intro idx s o oF oD hF hD hdet
    have hdet0 : (Matrix2.mk 1 (-((s.dirV idx).normalize.dot oD.normalize))
        ((s.dirV idx).normalize.dot oD.normalize) (-1)).determinant ≠ 0 := by
      intro h0
      rw [h0] at hdet
      norm_num at hdet
    obtain ⟨mi, hinv⟩ : ∃ mi, (Matrix2.mk 1 (-((s.dirV idx).normalize.dot oD.normalize))
        ((s.dirV idx).normalize.dot oD.normalize) (-1)).try_inverse = some mi := by
      rw [Matrix2.try_inverse, if_neg hdet0]
      exact ⟨_, rfl⟩
    refine ⟨mi.mulVec (-(⟨(s.fromV idx - oF).dot (s.dirV idx).normalize,
        (s.fromV idx - oF).dot oD.normalize⟩ : Vector2)),
      Matrix2.mulVec_try_inverse _ _ hinv _, ?_⟩
    rw [get_intersection_eq s idx o oF oD _ _ hF hD rfl rfl,
      if_neg (not_lt.mpr hdet), hinv, apply_ite some]
  · have hsd : SegmentRef.dirV ⟨1, 0⟩ exIdx = ⟨1, 0, 0⟩ := by
      rw [show SegmentRef.dirV ⟨1, 0⟩ exIdx =
        (⟨1, 0, 0⟩ : Vector3) - ⟨0, 0, 0⟩ from rfl]
      norm_num
    have hsf : SegmentRef.fromV ⟨1, 0⟩ exIdx = ⟨0, 0, 0⟩ := rfl
    have hD : SegRef.dirV ⟨0, .Fow⟩ exIdx = some ⟨0, 2, 0⟩ := by
      rw [show SegRef.dirV ⟨0, .Fow⟩ exIdx =
        some ((⟨1 / 2, 1, 0⟩ : Vector3) - ⟨1 / 2, -1, 0⟩) from rfl]
      norm_num
    rw [get_intersection_eq ⟨1, 0⟩ exIdx ⟨0, .Fow⟩ ⟨1 / 2, -1, 0⟩ ⟨0, 2, 0⟩ _ _
      rfl hD rfl rfl, hsd, hsf, Vector3.normalize_x 1 (by norm_num),
      Vector3.normalize_y 2 (by norm_num)]
    rw [if_neg (by norm_num [Vector3.dot, Matrix2.determinant, abs_neg, abs_one])]
    have htry : (Matrix2.mk 1 (-((⟨1, 0, 0⟩ : Vector3).dot ⟨0, 1, 0⟩))
        ((⟨1, 0, 0⟩ : Vector3).dot ⟨0, 1, 0⟩) (-1)).try_inverse =
        some (Matrix2.mk 1 0 0 (-1)) := by
      rw [Matrix2.try_inverse]
      norm_num [Matrix2.determinant, Vector3.dot]
    rw [htry]
    norm_num [Matrix2.mulVec, Vector3.dot, Vector3.magnitude_squared,
      Vector3.magnitude_y, Prod.mk.injEq]

/-- C1 witness: the general solver branch applied to the concrete crossing pair,
with the near-parallel guard discharged at `|det M| = 1`. -/
theorem seg_intersection_solver_spec_witness :
    ∃ st : Vector2,
      (Matrix2.mk 1
          (-((SegmentRef.dirV ⟨1, 0⟩ exIdx).normalize.dot
            (Vector3.normalize ⟨0, 2, 0⟩)))
          ((SegmentRef.dirV ⟨1, 0⟩ exIdx).normalize.dot
            (Vector3.normalize ⟨0, 2, 0⟩)) (-1)).mulVec st =
        -(⟨(SegmentRef.fromV ⟨1, 0⟩ exIdx - (⟨1 / 2, -1, 0⟩ : Vector3)).dot
            (SegmentRef.dirV ⟨1, 0⟩ exIdx).normalize,
           (SegmentRef.fromV ⟨1, 0⟩ exIdx - (⟨1 / 2, -1, 0⟩ : Vector3)).dot
            (Vector3.normalize ⟨0, 2, 0⟩)⟩ : Vector2) ∧
      SegmentRef.get_intersection_params_seg_ref ⟨1, 0⟩ exIdx ⟨0, .Fow⟩ =
        some (if (SegmentRef.dirV ⟨1, 0⟩ exIdx * st.x +
            SegmentRef.fromV ⟨1, 0⟩ exIdx -
            (Vector3.normalize ⟨0, 2, 0⟩ * st.y +
              (⟨1 / 2, -1, 0⟩ : Vector3))).magnitude_squared <
            1 / 1000 * (1 / 1000) then
          some (st.x, st.y / Vector3.magnitude ⟨0, 2, 0⟩)
        else none) :=
  seg_intersection_solver_spec.1 exIdx ⟨1, 0⟩ ⟨0, .Fow⟩ ⟨1 / 2, -1, 0⟩ ⟨0, 2, 0⟩ rfl
    (by
      rw [show SegRef.dirV ⟨0, .Fow⟩ exIdx =
        some ((⟨1 / 2, 1, 0⟩ : Vector3) - ⟨1 / 2, -1, 0⟩) from rfl]
      norm_num)
    (by
      rw [show SegmentRef.dirV ⟨1, 0⟩ exIdx =
        (⟨1, 0, 0⟩ : Vector3) - ⟨0, 0, 0⟩ from rfl]
      norm_num [Vector3.normalize_y 2, Vector3.normalize_x 1, Vector3.dot,
        Matrix2.determinant, abs_neg, abs_one])

end Prismatic
